import Mathlib

/-!
Verification of the Chronoturin comparative visualizer (src/src/main.rs).

Shallow embedding conventions:
* f32 values are modelled by `FV`: exact rationals extended with NaN and the
  two infinities.  Arithmetic follows IEEE-754 special-value propagation
  (NaN is absorbing, comparisons involving NaN are false); finite arithmetic
  is exact rational arithmetic (f32 rounding is not modelled, and the sign
  of zero is collapsed to a single zero).
* u8 channel values are `Nat`s kept below 256 by the saturating addition
  `satAdd`; `RgbImage` is a total function from coordinates to channel
  triples (out-of-range coordinates are never written, which is part of
  what is proved).
* The trigonometric initialisation (lines 62-78 of main.rs) is modelled
  over the reals, since sqrt/sin/cos have no rational counterpart.
* GPU readback and file saving are fallible; their outcomes are abstracted
  by boolean oracles indexed by (pass, frame), and the run loop is embedded
  in the `Except` monad (a panic is `Except.error`).
-/

set_option maxRecDepth 8192

namespace Chronoturin

/-- Rational addition computed through `mkRat`, so that it reduces inside the
kernel (`Rat.add` itself does not); `qadd_eq` proves it is ordinary addition. -/
def qadd (a b : ℚ) : ℚ := mkRat (a.num * b.den + b.num * a.den) (a.den * b.den)

/-- Rational negation through `mkRat`; `qneg_eq` proves it is ordinary negation. -/
def qneg (a : ℚ) : ℚ := mkRat (-a.num) a.den

/-- Rational multiplication through `mkRat`; `qmul_eq` proves it is ordinary
multiplication. -/
def qmul (a b : ℚ) : ℚ := mkRat (a.num * b.num) (a.den * b.den)

/-- Rational division through `mkRat`; `qdiv_eq` proves it is ordinary division
(with the 0-divisor convention `a / 0 = 0`, which the caller never relies on). -/
def qdiv (a b : ℚ) : ℚ :=
  if b.num < 0 then mkRat (-(a.num * (b.den : Int))) (a.den * b.num.natAbs)
  else mkRat (a.num * (b.den : Int)) (a.den * b.num.natAbs)

/-- Model of an f32 value: NaN, plus and minus infinity, or a finite rational. -/
inductive FV where
  | nan : FV
  | pinf : FV
  | ninf : FV
  | fin : ℚ → FV
deriving DecidableEq, Repr

namespace FV

/-- IEEE negation on the model (NaN maps to NaN, infinities swap). -/
def fneg : FV → FV
  | nan => nan
  | pinf => ninf
  | ninf => pinf
  | fin a => fin (qneg a)

/-- IEEE addition on the model: NaN absorbs, opposite infinities give NaN. -/
def fadd : FV → FV → FV
  | nan, _ => nan
  | _, nan => nan
  | pinf, ninf => nan
  | ninf, pinf => nan
  | pinf, _ => pinf
  | _, pinf => pinf
  | ninf, _ => ninf
  | _, ninf => ninf
  | fin a, fin b => fin (qadd a b)

/-- IEEE subtraction, defined as addition of the negation. -/
def fsub (a b : FV) : FV := fadd a (fneg b)

/-- IEEE multiplication on the model: NaN absorbs, infinity times zero is NaN. -/
def fmul : FV → FV → FV
  | nan, _ => nan
  | _, nan => nan
  | pinf, pinf => pinf
  | pinf, ninf => ninf
  | ninf, pinf => ninf
  | ninf, ninf => pinf
  | pinf, fin b => if b = 0 then nan else if 0 < b then pinf else ninf
  | ninf, fin b => if b = 0 then nan else if 0 < b then ninf else pinf
  | fin a, pinf => if a = 0 then nan else if 0 < a then pinf else ninf
  | fin a, ninf => if a = 0 then nan else if 0 < a then ninf else pinf
  | fin a, fin b => fin (qmul a b)

/-- IEEE division on the model: NaN absorbs, inf/inf is NaN, finite/inf is 0,
finite/0 is a signed infinity (0/0 is NaN); the sign of zero is not modelled,
zero divisors count as +0. -/
def fdiv : FV → FV → FV
  | nan, _ => nan
  | _, nan => nan
  | pinf, pinf => nan
  | pinf, ninf => nan
  | ninf, pinf => nan
  | ninf, ninf => nan
  | pinf, fin b => if 0 ≤ b then pinf else ninf
  | ninf, fin b => if 0 ≤ b then ninf else pinf
  | fin _, pinf => fin 0
  | fin _, ninf => fin 0
  | fin a, fin b =>
      if b = 0 then (if a = 0 then nan else if 0 < a then pinf else ninf)
      else fin (qdiv a b)

/-- IEEE strict less-than: false whenever NaN is involved. -/
def flt : FV → FV → Bool
  | nan, _ => false
  | _, nan => false
  | ninf, ninf => false
  | ninf, _ => true
  | _, ninf => false
  | pinf, _ => false
  | fin _, pinf => true
  | fin a, fin b => decide (a < b)

/-- IEEE less-or-equal: false whenever NaN is involved. -/
def fle : FV → FV → Bool
  | nan, _ => false
  | _, nan => false
  | ninf, _ => true
  | _, ninf => false
  | _, pinf => true
  | pinf, fin _ => false
  | fin a, fin b => decide (a ≤ b)

/-- IEEE greater-than (`a > b` is `b < a`, NaN always compares false). -/
def fgt (a b : FV) : Bool := flt b a

/-- IEEE greater-or-equal (`a ≥ b` is `b ≤ a`, NaN always compares false). -/
def fge (a b : FV) : Bool := fle b a

/-- Rust `as u32` cast of an f32: NaN casts to 0, the cast saturates at the
ends of the u32 range, and a finite value is truncated toward zero (for the
nonnegative values reaching the cast in this program, that is the floor). -/
def toU32 : FV → Nat
  | nan => 0
  | ninf => 0
  | pinf => 4294967295
  | fin q => if q < 0 then 0 else min q.floor.toNat 4294967295

end FV

/-- Constant `NUM_STARS` from main.rs line 8. -/
def NUM_STARS : Nat := 100000

/-- Constant `WORKGROUP_SIZE` from main.rs line 9. -/
def WORKGROUP_SIZE : Nat := 256

/-- Constant `FRAMES_PER_MODE` from main.rs line 10. -/
def FRAMES_PER_MODE : Nat := 150

/-- Constant `SIM_STEPS_PER_FRAME` from main.rs line 11. -/
def SIM_STEPS_PER_FRAME : Nat := 5

/-- The `Star` record of main.rs lines 19-26, with f32 fields modelled by `FV`. -/
structure Star where
  x : FV
  y : FV
  z : FV
  vx : FV
  vy : FV
  vz : FV
  mass : FV
  data_type : FV
  time_debt : FV
  active_flag : FV
deriving DecidableEq, Repr

/-- One RGB pixel; channels are `Nat`s kept in [0,255] by saturating addition. -/
structure RGB where
  r : Nat
  g : Nat
  b : Nat
deriving DecidableEq, Repr

/-- A 1024x1024 image, modelled as a total function from (x, y) to the pixel. -/
def Image : Type := Nat → Nat → RGB

/-- The image `RgbImage::new(1024, 1024)`: all pixels start at zero (main.rs line 145). -/
def blankImage : Image := fun _ _ => ⟨0, 0, 0⟩

/-- u8 `saturating_add`, on channel values kept at most 255. -/
def satAdd (a b : Nat) : Nat := min (a + b) 255

/-- Constant `camera_z = -1000.0` (main.rs line 115). -/
def camera_z : FV := FV.fin (-1000)

/-- Constant `fov = 800.0` (main.rs line 114). -/
def fovV : FV := FV.fin 800

/-- The f32 literal `0.5` used in the data-type and active-flag tests. -/
def halfV : FV := FV.fin (mkRat 1 2)

/-- Depth `rel_z = star.z - camera_z` (main.rs line 148). -/
def relZ (s : Star) : FV := FV.fsub s.z camera_z

/-- Projection `factor = fov / rel_z` (main.rs line 150). -/
def projFactor (s : Star) : FV := FV.fdiv fovV (relZ s)

/-- Projected `screen_x = star.x * factor + 512.0` (main.rs line 151). -/
def screenX (s : Star) : FV := FV.fadd (FV.fmul s.x (projFactor s)) (FV.fin 512)

/-- Projected `screen_y = star.y * factor + 512.0` (main.rs line 152). -/
def screenY (s : Star) : FV := FV.fadd (FV.fmul s.y (projFactor s)) (FV.fin 512)

/-- The bounds guard of main.rs line 154:
`screen_x >= 0.0 && screen_x < 1024.0 && screen_y >= 0.0 && screen_y < 1024.0`. -/
def onScreen (s : Star) : Bool :=
  FV.fge (screenX s) (FV.fin 0) && FV.flt (screenX s) (FV.fin 1024) &&
  FV.fge (screenY s) (FV.fin 0) && FV.flt (screenY s) (FV.fin 1024)

/-- Drawing one star onto the image: the body of the `for star in stars`
loop, main.rs lines 147-173.  The near-plane test, the projection, the
bounds guard, the `as u32` casts and the per-channel saturating additions
are all taken directly from the source. -/
def drawStar (is_chronoturin : Bool) (img : Image) (s : Star) : Image :=
  if FV.fgt (relZ s) (FV.fin 10) then
    if onScreen s then
      let px := FV.toU32 (screenX s)
      let py := FV.toU32 (screenY s)
      fun a b =>
        if a = px ∧ b = py then
          let p0 := img a b
          -- BASE COLORS (main.rs lines 158-159)
          let p1 := if FV.flt s.data_type (halfV) then
              { p0 with r := satAdd p0.r 200 }
            else
              { p0 with b := satAdd p0.b 255 }
          -- EFFICIENCY VISUALIZER (main.rs lines 165-171)
          if FV.fgt s.active_flag (halfV) then
            let p2 := { p1 with g := satAdd p1.g 150 }
            if is_chronoturin then { p2 with r := satAdd p2.r 50 } else p2
          else p1
        else img a b
    else img
  else img

/-- The full rasterizer: fold the loop body over the snapshot in order,
starting from the all-black image (main.rs lines 145-174). -/
def render (is_chronoturin : Bool) (stars : List Star) : Image :=
  stars.foldl (drawStar is_chronoturin) blankImage

/-- A star passes both the near-plane test and the screen-bounds guard. -/
def drawnStar (s : Star) : Bool :=
  FV.fgt (relZ s) (FV.fin 10) && onScreen s

/-- A star is drawn and its projected (cast) coordinates are exactly (a, b). -/
def hitsPixel (s : Star) (a b : Nat) : Bool :=
  drawnStar s && decide (a = FV.toU32 (screenX s)) && decide (b = FV.toU32 (screenY s))

/-- Red increment a star applies at pixel (a, b): 200 for a category-A star,
plus 50 for an active star in Dilated (chronoturin) mode; 0 if the star does
not hit the pixel. -/
def redContrib (is_chronoturin : Bool) (a b : Nat) (s : Star) : Nat :=
  if hitsPixel s a b then
    (if FV.flt s.data_type (halfV) then 200 else 0) +
    (if FV.fgt s.active_flag (halfV) && is_chronoturin then 50 else 0)
  else 0

/-- Green increment a star applies at pixel (a, b): 150 when active. -/
def greenContrib (a b : Nat) (s : Star) : Nat :=
  if hitsPixel s a b then
    (if FV.fgt s.active_flag (halfV) then 150 else 0)
  else 0

/-- Blue increment a star applies at pixel (a, b): 255 for a category-B star. -/
def blueContrib (a b : Nat) (s : Star) : Nat :=
  if hitsPixel s a b then
    (if FV.flt s.data_type (halfV) then 0 else 255)
  else 0

/-- All channels of every pixel are at most 255. -/
def BoundedImage (img : Image) : Prop :=
  ∀ a b, (img a b).r ≤ 255 ∧ (img a b).g ≤ 255 ∧ (img a b).b ≤ 255

/-- A category-A star at the origin, inactive: used as a concrete test input. -/
def starA0 : Star :=
  { x := FV.fin 0, y := FV.fin 0, z := FV.fin 0, vx := FV.fin 0, vy := FV.fin 0,
    vz := FV.fin 0, mass := FV.fin 1, data_type := FV.fin 0, time_debt := FV.fin 0,
    active_flag := FV.fin 0 }

/-- A category-B star at the origin, active: used as a concrete test input. -/
def starB1 : Star :=
  { x := FV.fin 0, y := FV.fin 0, z := FV.fin 0, vx := FV.fin 0, vy := FV.fin 0,
    vz := FV.fin 0, mass := FV.fin 1, data_type := FV.fin 1, time_debt := FV.fin 0,
    active_flag := FV.fin 1 }

/-- A star whose x coordinate is NaN: used as a concrete test input. -/
def starNaN : Star :=
  { x := FV.nan, y := FV.fin 0, z := FV.fin 0, vx := FV.fin 0, vy := FV.fin 0,
    vz := FV.fin 0, mass := FV.fin 1, data_type := FV.fin 0, time_debt := FV.fin 0,
    active_flag := FV.fin 0 }

/-- A star sitting exactly at the camera plane (depth 0): concrete test input. -/
def starNear : Star :=
  { x := FV.fin 0, y := FV.fin 0, z := FV.fin (-1000), vx := FV.fin 0, vy := FV.fin 0,
    vz := FV.fin 0, mass := FV.fin 1, data_type := FV.fin 0, time_debt := FV.fin 0,
    active_flag := FV.fin 0 }

/-- Constant `TYPE_A` (main.rs line 14), in the real-valued initialisation model. -/
def TYPE_A : ℝ := 0

/-- Constant `TYPE_B` (main.rs line 15), in the real-valued initialisation model. -/
def TYPE_B : ℝ := 1

/-- The `Star` record with real-valued fields, used for the initialisation
model where sqrt, sin and cos are involved. -/
structure StarR where
  x : ℝ
  y : ℝ
  z : ℝ
  vx : ℝ
  vy : ℝ
  vz : ℝ
  mass : ℝ
  data_type : ℝ
  time_debt : ℝ
  active_flag : ℝ

/-- The radius `r = 300.0 * rng.gen::<f32>().sqrt()` (main.rs line 66): the radial law
the code applies to the uniform sample u. -/
noncomputable def sampleRadius (u : ℝ) : ℝ := 300 * Real.sqrt u

/-- The radial law described by the spec's words "cube-root-corrected radial
distribution to keep density uniform", namely r = 300·u^(1/3); stated here
only to compare it with the code's `sampleRadius`. -/
noncomputable def cubeRadius (u : ℝ) : ℝ := 300 * u ^ ((3:ℕ) : ℝ)⁻¹

/-- One star as built by one iteration of the initialisation loop
(main.rs lines 65-77), as a function of the four random draws: the radius
sample u, the two angles, and the category coin. -/
noncomputable def initStar (u θ φ : ℝ) (coin : Bool) : StarR :=
  let r := sampleRadius u
  { x := r * Real.sin φ * Real.cos θ
    y := r * Real.sin φ * Real.sin θ
    z := r * Real.cos φ
    vx := 0
    vy := 0
    vz := 0
    mass := 1
    data_type := if coin then TYPE_A else TYPE_B
    time_debt := 0
    active_flag := 0 }

/-- The contract of the external compute kernel (shader.wgsl, which is not in
src/), modelled from the spec: each invocation may rewrite its own particle's
velocity, position, accumulated-delay and active-flag, but must leave
category (`data_type`) and mass untouched. -/
def KernelPreserves (k : Nat → Star → Star) : Prop :=
  ∀ i s, (k i s).data_type = s.data_type ∧ (k i s).mass = s.mass

/-- Apply the kernel to each particle of the buffer in index order, starting
at index i: one compute dispatch covering indices [i, i + length). -/
def stepFrom (k : Nat → Star → Star) : Nat → List Star → List Star
  | _, [] => []
  | i, s :: rest => k i s :: stepFrom k (i + 1) rest

/-- One full dispatch (main.rs lines 120-128): one kernel invocation per
particle, indices [0, N). -/
def stepAll (k : Nat → Star → Star) (l : List Star) : List Star := stepFrom k 0 l

/-- m consecutive dispatches (SIM_STEPS_PER_FRAME per frame, accumulated over
frames within one pass). -/
def applySteps (k : Nat → Star → Star) : Nat → List Star → List Star
  | 0, l => l
  | m + 1, l => applySteps k m (stepAll k l)

/-- The initial buffer (main.rs lines 62-78): the loop pushes NUM_STARS
records, the record at index i produced by the RNG-drawn generator g. -/
def mkInitialData (g : Nat → Star) : List Star := (List.range NUM_STARS).map g

/-- The `file_prefix` of main.rs line 56: "chrono" in the Chronoturin pass
(pass index 1), "newton" otherwise. -/
def filePrefixOf (pass : Nat) : String := if pass = 1 then "chrono" else "newton"

/-- The `{:03}` zero-padding of `format!` (main.rs line 178): pad the decimal
representation with leading zeros to at least three characters. -/
def pad3 (n : Nat) : String :=
  String.mk (List.replicate (3 - (toString n).length) (Char.ofNat 48)) ++ toString n

/-- The filename `format!("{}_{:03}.png", file_prefix, frame)` (main.rs line 178). -/
def fileName (pass frame : Nat) : String :=
  filePrefixOf pass ++ "_" ++ pad3 frame ++ ".png"

/-- The iteration space of the two nested loops: `for pass in 0..2` (main.rs
line 53) and `for frame in 0..FRAMES_PER_MODE` (line 117), in order. -/
def passFramePairs : List (Nat × Nat) :=
  (List.range 2).bind (fun pass =>
    (List.range FRAMES_PER_MODE).map (fun frame => (pass, frame)))

/-- What one frame of the loop makes observable on disk. -/
inductive FrameEvent where
  | saved : String → FrameEvent
  | skipped : FrameEvent
deriving DecidableEq, Repr

/-- One frame of the render loop (main.rs lines 117-185).  `rb` abstracts the
readback-mapping outcome consumed by `if let Ok(Ok(())) = rx.recv()` (line
142): when it is false, the frame body is simply not executed.  `sv`
abstracts the result of `img.save(&filename)` (line 179): when it is false,
the `.unwrap()` panics, modelled as `Except.error` carrying the filename. -/
def frameStep (rb sv : Nat → Nat → Bool) (pass frame : Nat) : Except String FrameEvent :=
  if rb pass frame then
    if sv pass frame then Except.ok (FrameEvent.saved (fileName pass frame))
    else Except.error (fileName pass frame)
  else Except.ok FrameEvent.skipped

/-- Sequential effectful map: the first error aborts everything after it,
the way a panic ends the process. -/
def exceptMap (f : α → Except ε β) : List α → Except ε (List β)
  | [] => Except.ok []
  | a :: l =>
    match f a with
    | Except.error e => Except.error e
    | Except.ok b =>
      match exceptMap f l with
      | Except.error e => Except.error e
      | Except.ok bs => Except.ok (b :: bs)

/-- The whole double loop of `run` (main.rs lines 53-186), reduced to its
observable per-frame disk events. -/
def runFrames (rb sv : Nat → Nat → Bool) : Except String (List FrameEvent) :=
  exceptMap (fun pf => frameStep rb sv pf.1 pf.2) passFramePairs

/-- The per-frame events when every save succeeds (no panic possible). -/
def frameEventsOf (rb : Nat → Nat → Bool) : List FrameEvent :=
  passFramePairs.map (fun pf =>
    if rb pf.1 pf.2 then FrameEvent.saved (fileName pf.1 pf.2) else FrameEvent.skipped)

/-- The files written during a run in which every save succeeds. -/
def writtenFiles (rb : Nat → Nat → Bool) : List String :=
  (frameEventsOf rb).filterMap (fun e =>
    match e with
    | FrameEvent.saved n => some n
    | FrameEvent.skipped => none)

def isError (x : Except ε α) : Bool :=
  match x with
  | Except.error _ => true
  | Except.ok _ => false

/-- A readback oracle that fails exactly at pass 0, frame 3. -/
def rbW : Nat → Nat → Bool := fun p f => !(p == 0 && f == 3)

/-- A save oracle that fails exactly at pass 0, frame 0. -/
def svW : Nat → Nat → Bool := fun p f => !(p == 0 && f == 0)

lemma qden_cast_ne (a : ℚ) : ((a.den : ℚ)) ≠ 0 := by
  exact_mod_cast a.den_nz

lemma qnum_mul_den (a : ℚ) : (a.num : ℚ) = a * (a.den : ℚ) := by
  have h := Rat.num_div_den a
  rw [div_eq_iff (qden_cast_ne a)] at h
  exact h

lemma qadd_eq (a b : ℚ) : qadd a b = a + b := by
  unfold qadd
  rw [Rat.mkRat_eq_div]
  push_cast
  rw [div_eq_iff (mul_ne_zero (qden_cast_ne a) (qden_cast_ne b)),
    qnum_mul_den a, qnum_mul_den b]
  ring

lemma qneg_eq (a : ℚ) : qneg a = -a := by
  unfold qneg
  rw [Rat.mkRat_eq_div]
  push_cast
  rw [div_eq_iff (qden_cast_ne a), qnum_mul_den a]
  ring

lemma qmul_eq (a b : ℚ) : qmul a b = a * b := by
  unfold qmul
  rw [Rat.mkRat_eq_div]
  push_cast
  rw [div_eq_iff (mul_ne_zero (qden_cast_ne a) (qden_cast_ne b)),
    qnum_mul_den a, qnum_mul_den b]
  ring

lemma qdiv_eq (a b : ℚ) : qdiv a b = a / b := by
  unfold qdiv
  rcases lt_trichotomy b.num 0 with hb | hb | hb
  · have hbq : (b.num : ℚ) ≠ 0 := by exact_mod_cast hb.ne
    have hbne : b ≠ 0 := by
      intro h
      rw [h] at hb
      simp at hb
    rw [if_pos hb, Rat.mkRat_eq_div]
    push_cast [Int.cast_natAbs]
    rw [abs_of_neg (by exact_mod_cast hb : ((b.num : ℚ)) < 0)]
    rw [div_eq_div_iff (by
        exact mul_ne_zero (qden_cast_ne a) (neg_ne_zero.mpr hbq)) hbne,
      qnum_mul_den a, qnum_mul_den b]
    ring
  · have hb0 : b = 0 := by
      have h := Rat.num_div_den b
      rw [hb] at h
      simpa using h.symm
    subst hb0
    simp [hb, Rat.mkRat_eq_div]
  · have hbq : (b.num : ℚ) ≠ 0 := by exact_mod_cast hb.ne'
    have hbne : b ≠ 0 := by
      intro h
      rw [h] at hb
      simp at hb
    rw [if_neg (by omega), Rat.mkRat_eq_div]
    push_cast [Int.cast_natAbs]
    rw [abs_of_pos (by exact_mod_cast hb : (0:ℚ) < (b.num : ℚ))]
    rw [div_eq_div_iff (mul_ne_zero (qden_cast_ne a) hbq) hbne,
      qnum_mul_den a, qnum_mul_den b]
    ring

lemma blankImage_bounded : BoundedImage blankImage := by
  intro a b
  simp [blankImage]

/-- Effect of drawing one star on one pixel, in closed form: each channel is
the clamped sum of its previous value and the star's increment. -/
lemma drawStar_apply (c : Bool) (img : Image) (s : Star) (a b : Nat)
    (hr : (img a b).r ≤ 255) (hg : (img a b).g ≤ 255) (hb : (img a b).b ≤ 255) :
    (drawStar c img s) a b =
      ⟨min 255 ((img a b).r + redContrib c a b s),
       min 255 ((img a b).g + greenContrib a b s),
       min 255 ((img a b).b + blueContrib a b s)⟩ := by
  rcases hp : img a b with ⟨r0, g0, b0⟩
  rw [hp] at hr hg hb
  simp only at hr hg hb
  unfold drawStar redContrib greenContrib blueContrib hitsPixel drawnStar satAdd
  by_cases h1 : FV.fgt (relZ s) (FV.fin 10) = true
  · by_cases h2 : onScreen s = true
    · by_cases hA : a = FV.toU32 (screenX s)
      · subst hA
        by_cases hB : b = FV.toU32 (screenY s)
        · subst hB
          by_cases h4 : FV.flt s.data_type (halfV) = true <;>
            by_cases h5 : FV.fgt s.active_flag (halfV) = true <;>
              cases c <;>
                simp [h1, h2, h4, h5, hp, RGB.mk.injEq] <;> omega
        · simp [h1, h2, hB, hp, RGB.mk.injEq] <;> omega
      · simp [h1, h2, hA, hp, RGB.mk.injEq] <;> omega
    · have h2' : onScreen s = false := by simpa using h2
      simp [h1, h2', hp, RGB.mk.injEq] <;> omega
  · have h1' : FV.fgt (relZ s) (FV.fin 10) = false := by simpa using h1
    simp [h1', hp, RGB.mk.injEq] <;> omega

lemma drawStar_bounded (c : Bool) (img : Image) (s : Star) (hB : BoundedImage img) :
    BoundedImage (drawStar c img s) := by
  intro a b
  obtain ⟨hr, hg, hb⟩ := hB a b
  rw [drawStar_apply c img s a b hr hg hb]
  refine ⟨?_, ?_, ?_⟩ <;> simp

/-- Folding the loop body over any star list, in closed form: each channel of
each pixel of the result is the clamped sum of the initial channel value and
the total of the per-star increments at that pixel. -/
lemma foldl_drawStar_apply (c : Bool) (stars : List Star) (img : Image)
    (hB : BoundedImage img) (a b : Nat) :
    (stars.foldl (drawStar c) img) a b =
      ⟨min 255 ((img a b).r + (stars.map (redContrib c a b)).sum),
       min 255 ((img a b).g + (stars.map (greenContrib a b)).sum),
       min 255 ((img a b).b + (stars.map (blueContrib a b)).sum)⟩ := by
  induction stars generalizing img with
  | nil =>
      obtain ⟨hr, hg, hb⟩ := hB a b
      rcases hp : img a b with ⟨r0, g0, b0⟩
      rw [hp] at hr hg hb
      simp only at hr hg hb
      simp [hp, RGB.mk.injEq]
      omega
  | cons s rest ih =>
      obtain ⟨hr, hg, hb⟩ := hB a b
      rw [List.foldl_cons, ih (drawStar c img s) (drawStar_bounded c img s hB),
        drawStar_apply c img s a b hr hg hb]
      simp [RGB.mk.injEq]
      omega

/-- Each channel of each rendered pixel is the clamped total of the per-star
increments at that pixel. -/
lemma render_apply (c : Bool) (stars : List Star) (a b : Nat) :
    render c stars a b =
      ⟨min 255 ((stars.map (redContrib c a b)).sum),
       min 255 ((stars.map (greenContrib a b)).sum),
       min 255 ((stars.map (blueContrib a b)).sum)⟩ := by
  have h := foldl_drawStar_apply c stars blankImage blankImage_bounded a b
  simpa [render, blankImage] using h

/-- Claim C1: for every snapshot and mode, the rendered image is unchanged by
any permutation of the particle list, and every channel of every pixel equals
the minimum of 255 and the total of the per-particle contributions to it. -/
theorem render_perm_invariant (c : Bool) (l1 l2 : List Star) (h : l1.Perm l2) :
    (∀ a b, render c l1 a b = render c l2 a b) ∧
    (∀ a b,
      (render c l1 a b).r = min 255 ((l1.map (redContrib c a b)).sum) ∧
      (render c l1 a b).g = min 255 ((l1.map (greenContrib a b)).sum) ∧
      (render c l1 a b).b = min 255 ((l1.map (blueContrib a b)).sum)) := by
  constructor
  · intro a b
    rw [render_apply c l1 a b, render_apply c l2 a b]
    have hr := (h.map (redContrib c a b)).sum_eq
    have hg := (h.map (greenContrib a b)).sum_eq
    have hb := (h.map (blueContrib a b)).sum_eq
    rw [hr, hg, hb]
  · intro a b
    rw [render_apply c l1 a b]
    exact ⟨rfl, rfl, rfl⟩

theorem render_perm_invariant_witness :
    ([starA0, starB1].Perm [starB1, starA0]) ∧
    render true [starA0, starB1] 512 512 = render true [starB1, starA0] 512 512 :=
  ⟨List.Perm.swap starB1 starA0 [],
   (render_perm_invariant true [starA0, starB1] [starB1, starA0]
      (List.Perm.swap starB1 starA0 [])).1 512 512⟩

/-- Claim C2: a drawn particle adds exactly 200 red when in category A and
255 blue when in category B; an active particle also adds 150 green, and 50
red exactly when the pass is Dilated (chronoturin) — in Baseline mode the
red increment consists of the category contribution alone.  All additions
saturate at 255. -/
theorem drawStar_color_contract (c : Bool) (img : Image) (s : Star)
    (hB : BoundedImage img) (hdrawn : drawnStar s = true) :
    ((drawStar c img s) (FV.toU32 (screenX s)) (FV.toU32 (screenY s))).r
      = min 255 ((img (FV.toU32 (screenX s)) (FV.toU32 (screenY s))).r +
          ((if FV.flt s.data_type halfV then 200 else 0) +
           (if FV.fgt s.active_flag halfV && c then 50 else 0))) ∧
    ((drawStar c img s) (FV.toU32 (screenX s)) (FV.toU32 (screenY s))).g
      = min 255 ((img (FV.toU32 (screenX s)) (FV.toU32 (screenY s))).g +
          (if FV.fgt s.active_flag halfV then 150 else 0)) ∧
    ((drawStar c img s) (FV.toU32 (screenX s)) (FV.toU32 (screenY s))).b
      = min 255 ((img (FV.toU32 (screenX s)) (FV.toU32 (screenY s))).b +
          (if FV.flt s.data_type halfV then 0 else 255)) ∧
    ((drawStar false img s) (FV.toU32 (screenX s)) (FV.toU32 (screenY s))).r
      = min 255 ((img (FV.toU32 (screenX s)) (FV.toU32 (screenY s))).r +
          (if FV.flt s.data_type halfV then 200 else 0)) := by
  have hhit : hitsPixel s (FV.toU32 (screenX s)) (FV.toU32 (screenY s)) = true := by
    simp [hitsPixel, hdrawn]
  obtain ⟨hr, hg, hb⟩ := hB (FV.toU32 (screenX s)) (FV.toU32 (screenY s))
  refine ⟨?_, ?_, ?_, ?_⟩ <;>
    rw [drawStar_apply _ img s _ _ hr hg hb] <;>
      simp [redContrib, greenContrib, blueContrib, hhit]

theorem drawStar_color_contract_witness :
    drawnStar starB1 = true ∧
    ((drawStar true blankImage starB1) (FV.toU32 (screenX starB1))
        (FV.toU32 (screenY starB1))).g
      = min 255 ((blankImage (FV.toU32 (screenX starB1)) (FV.toU32 (screenY starB1))).g +
          (if FV.fgt starB1.active_flag halfV then 150 else 0)) :=
  ⟨by decide,
   (drawStar_color_contract true blankImage starB1 blankImage_bounded (by decide)).2.1⟩

/-- Claim C3: a particle whose depth (z minus camera_z) is at most 10 is
culled by the near-plane guard: removing it from the snapshot, wherever it
sits in the list, leaves every pixel of the rendered image unchanged. -/
theorem nearPlane_cull (c : Bool) (s : Star)
    (h : FV.fle (relZ s) (FV.fin 10) = true) :
    ∀ (l1 l2 : List Star) (a b : Nat),
      render c (l1 ++ s :: l2) a b = render c (l1 ++ l2) a b := by
  have hgt : FV.fgt (relZ s) (FV.fin 10) = false := by
    cases hz : relZ s with
    | nan => rw [hz] at h; simp [FV.fle] at h
    | pinf => rw [hz] at h; simp [FV.fle] at h
    | ninf => simp [FV.fgt, FV.flt, hz]
    | fin q =>
        rw [hz] at h
        simp [FV.fle] at h
        simp [FV.fgt, FV.flt, hz]
        linarith
  have hid : ∀ img, drawStar c img s = img := by
    intro img
    unfold drawStar
    rw [hgt]
    simp
  intro l1 l2 a b
  unfold render
  rw [List.foldl_append, List.foldl_append, List.foldl_cons, hid]

theorem nearPlane_cull_witness :
    FV.fle (relZ starNear) (FV.fin 10) = true ∧
    render false [starNear] 512 512 = render false [] 512 512 :=
  ⟨by decide, nearPlane_cull false starNear (by decide) [] [] 512 512⟩

/-- Claim C4: a particle at world position (0,0,0), projected with
camera_z = -1000 and fov = 800, lands on screen pixel (512, 512). -/
theorem origin_projects_to_center (s : Star)
    (hx : s.x = FV.fin 0) (hy : s.y = FV.fin 0) (hz : s.z = FV.fin 0) :
    FV.toU32 (screenX s) = 512 ∧ FV.toU32 (screenY s) = 512 := by
  unfold screenX screenY projFactor relZ
  rw [hx, hy, hz]
  exact ⟨by decide, by decide⟩

theorem origin_projects_to_center_witness :
    starA0.x = FV.fin 0 ∧ FV.toU32 (screenX starA0) = 512 ∧
    FV.toU32 (screenY starA0) = 512 :=
  ⟨rfl, (origin_projects_to_center starA0 rfl rfl rfl).1,
   (origin_projects_to_center starA0 rfl rfl rfl).2⟩

lemma fmul_nan_left (v : FV) : FV.fmul FV.nan v = FV.nan := by
  cases v <;> rfl

lemma fadd_nan_left (v : FV) : FV.fadd FV.nan v = FV.nan := by
  cases v <;> rfl

lemma fge_fin_nan (q : ℚ) : FV.fge FV.nan (FV.fin q) = false := rfl

/-- A value that passes both halves of the bounds guard is a finite rational
in [0, 1024), so its u32 cast is below 1024. -/
lemma toU32_lt_of_guard (v : FV)
    (h0 : FV.fge v (FV.fin 0) = true) (h1 : FV.flt v (FV.fin 1024) = true) :
    FV.toU32 v < 1024 := by
  cases v with
  | nan => simp [FV.fge, FV.fle] at h0
  | pinf => simp [FV.flt] at h1
  | ninf => simp [FV.fge, FV.fle] at h0
  | fin q =>
      simp [FV.fge, FV.fle] at h0
      simp [FV.flt] at h1
      have hfl : q.floor < 1024 := by
        by_contra hcl
        push_neg at hcl
        have hle : ((1024:ℤ) : ℚ) ≤ q := Rat.le_floor.mp hcl
        have : (1024:ℚ) ≤ q := by exact_mod_cast hle
        linarith
      have hfl0 : (0:Int) ≤ q.floor := Rat.le_floor.mpr (by exact_mod_cast h0)
      simp [FV.toU32, not_lt.mpr h0]
      omega

/-- Claim C9: the pixel write is guarded, so the rasterizer can only change
pixels inside the 1024x1024 image, and a star with a NaN coordinate fails the
guard comparisons and changes nothing at all. -/
theorem raster_writes_in_bounds (c : Bool) (img : Image) (s : Star) (a b : Nat) :
    (drawStar c img s a b ≠ img a b → a < 1024 ∧ b < 1024) ∧
    ((s.x = FV.nan ∨ s.y = FV.nan ∨ s.z = FV.nan) → drawStar c img s = img) := by
  constructor
  · intro hne
    by_cases h1 : FV.fgt (relZ s) (FV.fin 10) = true
    · by_cases h2 : onScreen s = true
      · by_cases hA : a = FV.toU32 (screenX s)
        · subst hA
          by_cases hB : b = FV.toU32 (screenY s)
          · subst hB
            have h2' := h2
            unfold onScreen at h2'
            simp only [Bool.and_eq_true] at h2'
            obtain ⟨⟨⟨hx0, hx1⟩, hy0⟩, hy1⟩ := h2'
            exact ⟨toU32_lt_of_guard _ hx0 hx1, toU32_lt_of_guard _ hy0 hy1⟩
          · exact absurd (by unfold drawStar; simp [h1, h2, hB]) hne
        · exact absurd (by unfold drawStar; simp [h1, h2, hA]) hne
      · have h2' : onScreen s = false := by simpa using h2
        exact absurd (by unfold drawStar; simp [h1, h2']) hne
    · have h1' : FV.fgt (relZ s) (FV.fin 10) = false := by simpa using h1
      exact absurd (by unfold drawStar; simp [h1']) hne
  · intro hnan
    rcases hnan with hx | hy | hz
    · have hsx : screenX s = FV.nan := by
        unfold screenX
        rw [hx, fmul_nan_left, fadd_nan_left]
      have hos : onScreen s = false := by
        unfold onScreen
        rw [hsx]
        simp [FV.fge, FV.fle]
      unfold drawStar
      rw [hos]
      simp
    · have hsy : screenY s = FV.nan := by
        unfold screenY
        rw [hy, fmul_nan_left, fadd_nan_left]
      have hos : onScreen s = false := by
        unfold onScreen
        rw [hsy]
        simp [FV.fge, FV.fle]
      unfold drawStar
      rw [hos]
      simp
    · have hrel : relZ s = FV.nan := by
        unfold relZ
        rw [hz]
        rfl
      have hg : FV.fgt (relZ s) (FV.fin 10) = false := by
        rw [hrel]
        rfl
      unfold drawStar
      rw [hg]
      simp

theorem raster_writes_in_bounds_witness :
    (512 < 1024 ∧ 512 < 1024) ∧ drawStar true blankImage starNaN = blankImage :=
  ⟨(raster_writes_in_bounds true blankImage starA0 512 512).1 (by decide),
   (raster_writes_in_bounds true blankImage starNaN 0 0).2 (Or.inl rfl)⟩

/-- Claim C7 (amended): every initialised particle has zero velocity, mass 1,
zero accumulated delay, zero active flag, its category literal, and — for a
uniform sample u in [0,1) — a position inside the sphere of radius 300
centred at the origin.  The radial law is r = 300·√u, which is not the
cube-root-corrected density-uniform law (see `sampleRadius_ne_cubeRadius`). -/
theorem initStar_fields (u θ φ : ℝ) (coin : Bool) (h0 : 0 ≤ u) (h1 : u < 1) :
    (initStar u θ φ coin).vx = 0 ∧ (initStar u θ φ coin).vy = 0 ∧
    (initStar u θ φ coin).vz = 0 ∧ (initStar u θ φ coin).mass = 1 ∧
    (initStar u θ φ coin).time_debt = 0 ∧ (initStar u θ φ coin).active_flag = 0 ∧
    (initStar u θ φ coin).data_type = (if coin then TYPE_A else TYPE_B) ∧
    (initStar u θ φ coin).x ^ 2 + (initStar u θ φ coin).y ^ 2 +
      (initStar u θ φ coin).z ^ 2 ≤ 300 ^ 2 := by
  refine ⟨rfl, rfl, rfl, rfl, rfl, rfl, rfl, ?_⟩
  show (sampleRadius u * Real.sin φ * Real.cos θ) ^ 2 +
      (sampleRadius u * Real.sin φ * Real.sin θ) ^ 2 +
      (sampleRadius u * Real.cos φ) ^ 2 ≤ 300 ^ 2
  have hθ := Real.cos_sq_add_sin_sq θ
  have hφ := Real.sin_sq_add_cos_sq φ
  have key : (sampleRadius u * Real.sin φ * Real.cos θ) ^ 2 +
      (sampleRadius u * Real.sin φ * Real.sin θ) ^ 2 +
      (sampleRadius u * Real.cos φ) ^ 2
      = sampleRadius u ^ 2 *
        ((Real.sin φ ^ 2) * (Real.cos θ ^ 2 + Real.sin θ ^ 2) + Real.cos φ ^ 2) := by
    ring
  rw [key, hθ, mul_one, hφ, mul_one]
  have hsq : sampleRadius u ^ 2 = 90000 * u := by
    unfold sampleRadius
    rw [mul_pow, Real.sq_sqrt h0]
    norm_num
  rw [hsq]
  nlinarith

theorem initStar_fields_witness :
    (0:ℝ) ≤ 0 ∧ (0:ℝ) < 1 ∧
    ((initStar 0 0 0 true).mass = 1 ∧
     (initStar 0 0 0 true).x ^ 2 + (initStar 0 0 0 true).y ^ 2 +
       (initStar 0 0 0 true).z ^ 2 ≤ 300 ^ 2) :=
  ⟨le_refl 0, zero_lt_one,
   (initStar_fields 0 0 0 true (le_refl 0) zero_lt_one).2.2.2.1,
   (initStar_fields 0 0 0 true (le_refl 0) zero_lt_one).2.2.2.2.2.2.2⟩

/-- Counterexample for claim C7 as stated: the radial law of main.rs line 66
(r = 300·√u) is not the cube-root-corrected (density-uniform) radial law that
the spec ascribes to it — at u = 1/64 the code's law gives 37.5 while the
cube-root law gives 75. -/
theorem sampleRadius_ne_cubeRadius : sampleRadius (1/64) ≠ cubeRadius (1/64) := by
  have h1 : sampleRadius (1/64) = 300 * (1/8) := by
    unfold sampleRadius
    rw [show (1/64:ℝ) = (1/8)^2 by norm_num, Real.sqrt_sq (by norm_num)]
  have h2 : cubeRadius (1/64) = 300 * (1/4) := by
    unfold cubeRadius
    rw [show (1/64:ℝ) = (1/4)^(3:ℕ) by norm_num,
      Real.pow_rpow_inv_natCast (by norm_num) (by norm_num)]
  rw [h1, h2]
  norm_num

lemma stepFrom_length (k : Nat → Star → Star) :
    ∀ (j : Nat) (l : List Star), (stepFrom k j l).length = l.length := by
  intro j l
  induction l generalizing j with
  | nil => rfl
  | cons s rest ih => simp [stepFrom, ih]

lemma stepFrom_getElem (k : Nat → Star → Star) :
    ∀ (l : List Star) (j i : Nat), (stepFrom k j l)[i]? = (l[i]?).map (k (j + i)) := by
  intro l
  induction l with
  | nil => intro j i; rfl
  | cons s rest ih =>
      intro j i
      cases i with
      | zero => simp [stepFrom]
      | succ n =>
          simp only [stepFrom, List.getElem?_cons_succ]
          rw [ih (j + 1) n]
          have harith : j + 1 + n = j + (n + 1) := by omega
          rw [harith]

lemma applySteps_length (k : Nat → Star → Star) :
    ∀ (m : Nat) (l : List Star), (applySteps k m l).length = l.length := by
  intro m
  induction m with
  | zero => intro l; rfl
  | succ n ih =>
      intro l
      show (applySteps k n (stepAll k l)).length = l.length
      rw [ih (stepAll k l)]
      exact stepFrom_length k 0 l

lemma applySteps_field (k : Nat → Star → Star) (f : Star → FV)
    (hf : ∀ i s, f (k i s) = f s) :
    ∀ (m : Nat) (l : List Star) (i : Nat),
      ((applySteps k m l)[i]?).map f = (l[i]?).map f := by
  intro m
  induction m with
  | zero => intro l i; rfl
  | succ n ih =>
      intro l i
      show ((applySteps k n (stepAll k l))[i]?).map f = (l[i]?).map f
      rw [ih (stepAll k l) i]
      unfold stepAll
      rw [stepFrom_getElem k l 0 i]
      cases l[i]? with
      | none => rfl
      | some s => simp [hf]

/-- Claim C8: within a pass, under the kernel contract, the buffer keeps
exactly N = 100,000 particles in stable index order, and the category and
mass stored at every index after any number of kernel dispatches are those
assigned at initialisation. -/
theorem pass_invariants (k : Nat → Star → Star) (hk : KernelPreserves k)
    (g : Nat → Star) (m : Nat) :
    (applySteps k m (mkInitialData g)).length = 100000 ∧
    (∀ i : Nat, ((applySteps k m (mkInitialData g))[i]?).map Star.data_type
        = ((mkInitialData g)[i]?).map Star.data_type) ∧
    (∀ i : Nat, ((applySteps k m (mkInitialData g))[i]?).map Star.mass
        = ((mkInitialData g)[i]?).map Star.mass) := by
  refine ⟨?_, ?_, ?_⟩
  · rw [applySteps_length k m (mkInitialData g)]
    simp [mkInitialData, NUM_STARS]
  · intro i
    exact applySteps_field k Star.data_type (fun i s => (hk i s).1) m (mkInitialData g) i
  · intro i
    exact applySteps_field k Star.mass (fun i s => (hk i s).2) m (mkInitialData g) i

theorem pass_invariants_witness :
    (applySteps (fun _ s => s) 3 (mkInitialData (fun _ => starA0))).length = 100000 :=
  (pass_invariants (fun _ s => s) (fun _ _ => ⟨rfl, rfl⟩) (fun _ => starA0) 3).1

lemma exceptMap_ok (f : α → Except ε β) (g : α → β)
    (h : ∀ a, f a = Except.ok (g a)) : ∀ l : List α, exceptMap f l = Except.ok (l.map g) := by
  intro l
  induction l with
  | nil => rfl
  | cons a l ih => simp [exceptMap, h a, ih]

/-- When every save succeeds, the run panics nowhere and its events are
exactly `frameEventsOf`. -/
lemma runFrames_all_saves_ok (rb : Nat → Nat → Bool) :
    runFrames rb (fun _ _ => true) = Except.ok (frameEventsOf rb) := by
  unfold runFrames frameEventsOf
  exact exceptMap_ok _ _ (fun pf => by simp [frameStep, apply_ite Except.ok]) passFramePairs

lemma exceptMap_error_of_mem (f : α → Except ε β) :
    ∀ (l : List α) (a : α), a ∈ l → isError (f a) = true →
      isError (exceptMap f l) = true := by
  intro l
  induction l with
  | nil => intro a ha; cases ha
  | cons b l ih =>
      intro a ha hfa
      rcases List.mem_cons.mp ha with rfl | ha'
      · cases hfb : f a with
        | error e => simp [exceptMap, hfb, isError]
        | ok v => rw [hfb] at hfa; simp [isError] at hfa
      · cases hfb : f b with
        | error e => simp [exceptMap, hfb, isError]
        | ok v =>
            have hrec := ih a ha' hfa
            cases hm : exceptMap f l with
            | error e => simp [exceptMap, hfb, hm, isError]
            | ok bs => rw [hm] at hrec; simp [isError] at hrec

lemma filterMap_some_of (f : α → Option β) (g : α → β)
    (h : ∀ a, f a = some (g a)) : ∀ l : List α, l.filterMap f = l.map g := by
  intro l
  induction l with
  | nil => rfl
  | cons a l ih => rw [List.filterMap_cons, h a, List.map_cons, ih]

/-- Claim C5 (amended): in an execution in which every frame's readback
mapping succeeds (and every save succeeds), exactly one image file is
written per frame per pass, named `{prefix}_{frame:03}.png` with prefix
"newton" for pass 0 and "chrono" for pass 1 and the frame index zero-padded
to three digits — 150 files per pass, 300 in total. -/
theorem output_file_names :
    writtenFiles (fun _ _ => true) =
      passFramePairs.map (fun pf => fileName pf.1 pf.2) ∧
    (writtenFiles (fun _ _ => true)).length = 300 ∧
    FRAMES_PER_MODE = 150 ∧
    filePrefixOf 0 = "newton" ∧ filePrefixOf 1 = "chrono" ∧
    fileName 0 0 = "newton_000.png" ∧
    fileName 0 42 = "newton_042.png" ∧
    fileName 0 149 = "newton_149.png" ∧
    fileName 1 0 = "chrono_000.png" ∧
    fileName 1 149 = "chrono_149.png" := by
  have hmap : writtenFiles (fun _ _ => true) =
      passFramePairs.map (fun pf => fileName pf.1 pf.2) := by
    unfold writtenFiles frameEventsOf
    rw [List.filterMap_map]
    exact filterMap_some_of _ _ (fun pf => rfl) passFramePairs
  refine ⟨hmap, ?_, rfl, rfl, rfl, by decide, by decide, by decide, by decide, by decide⟩
  rw [hmap, List.length_map]
  decide

/-- Counterexample for claim C5 as stated ("every program execution writes
... 300 files in total"): an execution in which every readback mapping fails
completes without error yet writes no file at all. -/
theorem output_files_counterexample :
    runFrames (fun _ _ => false) (fun _ _ => true)
        = Except.ok (frameEventsOf (fun _ _ => false)) ∧
    writtenFiles (fun _ _ => false) = [] ∧
    (writtenFiles (fun _ _ => false)).length ≠ 300 :=
  ⟨runFrames_all_saves_ok (fun _ _ => false), by decide, by decide⟩

/-- Claim C6: a frame whose readback mapping fails is silently dropped: the
run still completes without any error, all 2·150 frame slots are processed
(the loop proceeds to the following frames), and the failing frame's slot
holds the `skipped` event — no file is written for it. -/
theorem readback_failure_skips (rb : Nat → Nat → Bool) (p f : Nat)
    (hp : p < 2) (hf : f < FRAMES_PER_MODE) (hrb : rb p f = false) :
    runFrames rb (fun _ _ => true) = Except.ok (frameEventsOf rb) ∧
    (frameEventsOf rb).length = 300 ∧
    (frameEventsOf rb)[p * FRAMES_PER_MODE + f]? = some FrameEvent.skipped := by
  refine ⟨runFrames_all_saves_ok rb, ?_, ?_⟩
  · unfold frameEventsOf
    rw [List.length_map]
    decide
  · have hpair : passFramePairs[p * FRAMES_PER_MODE + f]? = some (p, f) := by
      have hsplit : passFramePairs =
          ((List.range FRAMES_PER_MODE).map (fun fr => ((0:Nat), fr))) ++
          ((List.range FRAMES_PER_MODE).map (fun fr => ((1:Nat), fr))) := by rfl
      have hp2 : p = 0 ∨ p = 1 := by omega
      rw [hsplit, List.getElem?_append]
      rcases hp2 with rfl | rfl
      · rw [if_pos (by simpa using hf)]
        simp only [List.getElem?_map, Nat.zero_mul, Nat.zero_add]
        rw [List.getElem?_range hf]
        rfl
      · rw [if_neg (by rw [List.length_map, List.length_range]; omega)]
        simp only [List.getElem?_map, List.length_map, List.length_range]
        have hidx : 1 * FRAMES_PER_MODE + f - FRAMES_PER_MODE = f := by omega
        rw [hidx, List.getElem?_range hf]
        rfl
    unfold frameEventsOf
    rw [List.getElem?_map, hpair]
    simp [hrb]

theorem readback_failure_skips_witness :
    rbW 0 3 = false ∧
    (frameEventsOf rbW)[0 * FRAMES_PER_MODE + 3]? = some FrameEvent.skipped :=
  ⟨by decide, (readback_failure_skips rbW 0 3 (by decide) (by decide) (by decide)).2.2⟩

/-- Claim C10: if some reached frame's image-file save fails, the whole run
aborts with a panic (an error value), taking every later frame of the
current pass and any later pass with it — whereas with saves succeeding the
run never aborts, whatever the readback outcomes (the readback-failure path
only skips). -/
theorem save_failure_panics (rb sv : Nat → Nat → Bool) (p f : Nat)
    (hp : p < 2) (hf : f < FRAMES_PER_MODE)
    (hrb : rb p f = true) (hsv : sv p f = false) :
    isError (runFrames rb sv) = true ∧
    isError (runFrames rb (fun _ _ => true)) = false := by
  constructor
  · apply exceptMap_error_of_mem _ passFramePairs (p, f)
    · simp only [passFramePairs, List.mem_bind, List.mem_map, List.mem_range]
      exact ⟨p, hp, f, hf, rfl⟩
    · simp [frameStep, hrb, hsv, isError]
  · rw [runFrames_all_saves_ok rb]
    rfl

theorem save_failure_panics_witness :
    isError (runFrames (fun _ _ => true) svW) = true ∧
    runFrames (fun _ _ => true) svW = Except.error "newton_000.png" :=
  ⟨(save_failure_panics (fun _ _ => true) svW 0 0
      (by decide) (by decide) (by decide) (by decide)).1,
   by rfl⟩

end Chronoturin
